import Mathlib

/-!
Verification of the isolation-forest engine in
src/frds/algorithms/isolation_forest/src/IsolationForest.cpp.

The C++ code is shallowly embedded as follows.
* Numeric data values (C doubles that may be NaN) are modelled as
  Option ℤ, with none standing for the NaN sentinel; only the order of
  non-NaN values matters to the code, so an integer order suffices.
* Textual data values (NUL-terminated byte strings read through strlen
  and strcmp) are modelled as List ℕ of their bytes before the NUL.
* The seeded std::mt19937_64 generator is modelled as a stream
  g : ℕ → ℕ of raw draws consumed at successive positions; a call of a
  uniform_int_distribution over the range 0..m at position p is embedded
  as g p % (m+1).  Two forests built from the same randomSeed share the
  same stream.
* The std::sample calls in growForest and grow are modelled as a stream
  sampler : ℕ → List ℕ giving, for each iteration, the block of indices
  that std::sample appends through the back inserter.
* Real-valued computations (log, pow) live in ℝ; the division by the
  forestSize field inside anomalyScore, which under IEEE arithmetic
  produces NaN when forestSize is zero, is embedded with an Option ℝ
  result where none marks the NaN outcome.
-/

namespace IsolationForest

/-- The EULER_GAMMA macro constant of the source, 0.57721566490153286. -/
noncomputable def eulerGamma : ℝ := 0.57721566490153286

/-- The argument that averagePathLength passes to log: the value n - 1
computed in real arithmetic (line 106 of the source). -/
noncomputable def aplLogArg (n : ℕ) : ℝ := (n : ℝ) - 1

/-- Embedding of IsolationForest::averagePathLength (lines 104-107):
2 * (log(n - 1) + EULER_GAMMA) - (2 * (n - 1) / n).  Faithful for
n ≥ 2, where the log argument is positive; for n = 1 the source feeds 0
to log (IEEE -inf), which aplLogArg = 0 records. -/
noncomputable def averagePathLength (n : ℕ) : ℝ :=
  2 * (Real.log (aplLogArg n) + eulerGamma) - 2 * ((n : ℝ) - 1) / (n : ℝ)

/-- The abstract column-major data source (numpy arrays in the source):
numVal a i is the numeric value of observation i on numeric attribute a
(none = NaN), charVal c i the byte string of observation i on textual
attribute c. -/
structure DataSource where
  n_num_attrs : ℕ
  n_char_attrs : ℕ
  nObs : ℕ
  numVal : ℕ → ℕ → Option ℤ
  charVal : ℕ → ℕ → List ℕ

/-- The partition rule of the numeric branch of growTree (lines 35-50):
if the pivot val is NaN, observations with NaN go left and all others go
right; otherwise observations with NaN or with a value ≤ the pivot go
left. -/
def numLeft (val obsVal : Option ℤ) : Bool :=
  match val with
  | none => obsVal.isNone
  | some v =>
    match obsVal with
    | none => true
    | some o => decide (o ≤ v)

/-- Embedding of the C expression val <= splitValue on doubles used by
pathLength at line 143: any comparison involving NaN is false. -/
def ieeeLe (a b : Option ℤ) : Bool :=
  match a, b with
  | some x, some y => decide (x ≤ y)
  | _, _ => false

/-- Embedding of strcmp(a, b) <= 0 on the byte lists of two strings. -/
def strcmpLe : List ℕ → List ℕ → Bool
  | [], [] => true
  | [], _ :: _ => true
  | _ :: _, [] => false
  | a :: as, b :: bs =>
    if a < b then true
    else if b < a then false
    else strcmpLe as bs

/-- The partition rule of the textual branch of growTree (lines 66-74):
a strictly shorter observation string goes left, a strictly longer one
goes right, and among equal lengths strcmp decides. -/
def charLeft (val obsVal : List ℕ) : Bool :=
  if obsVal.length < val.length then true
  else if val.length < obsVal.length then false
  else strcmpLe obsVal val

/-- Tree nodes.  The source uses one Node struct with an isExNode flag
and a union-like pair splitValue/splitChar; growTree creates exactly the
three shapes below (leaf at lines 16-18, numeric split at lines 53-54,
textual split at line 77), so a tagged variant is the faithful
embedding.  nObs records the sample size that reached the node. -/
inductive Node where
  | leaf (nObs : ℕ)
  | numSplit (attr : ℕ) (splitValue : Option ℤ) (lnode rnode : Node)
  | charSplit (attr : ℕ) (splitChar : List ℕ) (lnode rnode : Node)
  deriving DecidableEq, Repr

/-- Embedding of IsolationForest::growTree (lines 12-82).  The source
recurses with a depth counter height and stops at
height >= maxTreeHeight; the embedding instead carries the remaining
height budget fuel = maxTreeHeight - height, so the guard fuel = 0 is
the guard height >= maxTreeHeight and the recursion is structural.
pos is the current position in the raw generator stream g: the
attribute draw of line 21 is g pos % (n_num_attrs + n_char_attrs), the
pivot-index draw of line 32 or 60 is g (pos+1) % nObs, and the two
recursive calls of lines 80-81 continue from position pos + 2, left
subtree first.  Partitions are order-preserving filters of the sample,
exactly as the pushes of the source loops. -/
def growTree (ds : DataSource) (g : ℕ → ℕ) : ℕ → List ℕ → ℕ → Node × ℕ
  | 0, sample, pos => (Node.leaf sample.length, pos)
  | fuel + 1, sample, pos =>
    if sample.length ≤ 1 then (Node.leaf sample.length, pos)
    else
      let attr := g pos % (ds.n_num_attrs + ds.n_char_attrs)
      let pivot := sample.getD (g (pos + 1) % sample.length) 0
      if attr < ds.n_num_attrs then
        let val := ds.numVal attr pivot
        let L := growTree ds g fuel
          (sample.filter fun i => numLeft val (ds.numVal attr i)) (pos + 2)
        let R := growTree ds g fuel
          (sample.filter fun i => !numLeft val (ds.numVal attr i)) L.2
        (Node.numSplit attr val L.1 R.1, R.2)
      else
        let val := ds.charVal (attr - ds.n_num_attrs) pivot
        let L := growTree ds g fuel
          (sample.filter fun i => charLeft val (ds.charVal (attr - ds.n_num_attrs) i)) (pos + 2)
        let R := growTree ds g fuel
          (sample.filter fun i => !charLeft val (ds.charVal (attr - ds.n_num_attrs) i)) L.2
        (Node.charSplit attr val L.1 R.1, R.2)

/-- Number of edges on the longest root-to-leaf path of a node. -/
def treeDepth : Node → ℕ
  | Node.leaf _ => 0
  | Node.numSplit _ _ l r => max (treeDepth l) (treeDepth r) + 1
  | Node.charSplit _ _ l r => max (treeDepth l) (treeDepth r) + 1

/-- Embedding of the member maxTreeHeight = ceil(log2(treeSize))
initialised at line 92; Nat.clog 2 is the ceiling base-2 logarithm,
equal to the source expression for every treeSize ≥ 1. -/
def maxTreeHeight (treeSize : ℕ) : ℕ := Nat.clog 2 treeSize

/-- Embedding of IsolationForest::pathLength (lines 133-163).  At a
numeric split the source tests val <= node->splitValue with plain
double comparison (line 143), embedded by ieeeLe; note it does NOT
repeat the isnan handling of growTree.  The textual branch repeats the
construction rule exactly.  At a leaf holding more than one observation
the correction averagePathLength(nObs) is added. -/
noncomputable def pathLength (ds : DataSource) (ob : ℕ) : Node → ℕ → ℝ
  | Node.leaf n, len =>
    if n ≤ 1 then (len : ℝ) else (len : ℝ) + averagePathLength n
  | Node.numSplit attr val l r, len =>
    if ieeeLe (ds.numVal attr ob) val then pathLength ds ob l (len + 1)
    else pathLength ds ob r (len + 1)
  | Node.charSplit attr val l r, len =>
    let obsVal := ds.charVal (attr - ds.n_num_attrs) ob
    if obsVal.length < val.length then pathLength ds ob l (len + 1)
    else if val.length < obsVal.length then pathLength ds ob r (len + 1)
    else if strcmpLe obsVal val then pathLength ds ob l (len + 1)
    else pathLength ds ob r (len + 1)

/-- Modelled from the spec: the walk of section 4.4, which at every
internal node follows the same comparison rule used at construction,
that is numLeft at numeric splits and charLeft at textual splits; leaves
are treated as in pathLength.  Used only to compare against the
pathLength of the source. -/
noncomputable def pathLengthSpec (ds : DataSource) (ob : ℕ) : Node → ℕ → ℝ
  | Node.leaf n, len =>
    if n ≤ 1 then (len : ℝ) else (len : ℝ) + averagePathLength n
  | Node.numSplit attr val l r, len =>
    if numLeft val (ds.numVal attr ob) then pathLengthSpec ds ob l (len + 1)
    else pathLengthSpec ds ob r (len + 1)
  | Node.charSplit attr val l r, len =>
    if charLeft val (ds.charVal (attr - ds.n_num_attrs) ob) then
      pathLengthSpec ds ob l (len + 1)
    else pathLengthSpec ds ob r (len + 1)

/-- The forest state relevant to scoring: the data source, the treeSize
and forestSize hyperparameters, and the owned tree roots. -/
structure Forest where
  ds : DataSource
  treeSize : ℕ
  forestSize : ℕ
  trees : List Node

/-- The sum accumulated by the loop of line 128. -/
noncomputable def totalPathLength (F : Forest) (ob : ℕ) : ℝ :=
  (F.trees.map fun t => pathLength F.ds ob t 0).sum

/-- Embedding of IsolationForest::anomalyScore (lines 126-131):
avg = (sum of path lengths) / forestSize, result
2 ^ (-avg / averagePathLength(treeSize)).  The division at line 129 is
by the forestSize member, not by the number of owned trees.  When
forestSize = 0 the IEEE division at line 129 produces no real number
(0/0 is NaN, and a positive sum over 0 is infinite), which an Option
result records as none. -/
noncomputable def anomalyScore? (F : Forest) (ob : ℕ) : Option ℝ :=
  if F.forestSize = 0 then none
  else
    some ((2 : ℝ) ^
      (-(totalPathLength F ob / (F.forestSize : ℝ)) / averagePathLength F.treeSize))

/-- Modelled from the spec: the scoring of section 4.4 read as averaging
over every owned tree, that is with the number of owned trees as the
denominator.  Used only to compare against anomalyScore? of the
source. -/
noncomputable def anomalyScoreMean? (F : Forest) (ob : ℕ) : Option ℝ :=
  if F.trees.length = 0 then none
  else
    some ((2 : ℝ) ^
      (-(totalPathLength F ob / (F.trees.length : ℝ)) / averagePathLength F.treeSize))

/-- Embedding of IsolationForest::growForest (lines 109-124).  The
iteration i draws the fresh block sampler i (the sample vector is
redeclared inside the loop), grows one tree from it, and appends it;
the generator position is threaded through successive growTree calls.
Returns the final generator position and the grown trees in order. -/
def growForest (ds : DataSource) (mTH : ℕ) (sampler : ℕ → List ℕ)
    (g : ℕ → ℕ) : ℕ → ℕ × List Node
  | 0 => (0, [])
  | i + 1 =>
    let st := growForest ds mTH sampler g i
    let t := growTree ds g mTH (sampler i) st.1
    (t.2, st.2 ++ [t.1])

/-- The forest produced by constructing with the given hyperparameters
and calling growForest once: trees are exactly the growForest output,
with fuel maxTreeHeight treeSize for every root. -/
def builtForest (ds : DataSource) (treeSize forestSize : ℕ)
    (sampler : ℕ → List ℕ) (g : ℕ → ℕ) : Forest :=
  ⟨ds, treeSize, forestSize, (growForest ds (maxTreeHeight treeSize) sampler g forestSize).2⟩

/-- Embedding of the thread body of IsolationForest::grow
(lines 165-179).  The sample vector is declared OUTSIDE the loop
(line 169) and std::sample appends to it through a back inserter
without it ever being cleared, so iteration i grows its tree from the
concatenation of all blocks drawn so far.  The state is (accumulated
sample vector, generator position, appended trees). -/
def growJobs (ds : DataSource) (mTH : ℕ) (sampler : ℕ → List ℕ)
    (g : ℕ → ℕ) : ℕ → List ℕ × ℕ × List Node
  | 0 => ([], 0, [])
  | i + 1 =>
    let st := growJobs ds mTH sampler g i
    let s := st.1 ++ sampler i
    let t := growTree ds g mTH s st.2.1
    (s, t.2, st.2.2 ++ [t.1])

/-! Concrete data sources, generator streams, sampler streams and trees
used by the concrete theorems below. -/

/-- One numeric attribute, one observation whose value is 0. -/
def dsConst : DataSource := ⟨1, 0, 1, fun _ _ => some 0, fun _ _ => []⟩

/-- One numeric attribute, two observations: observation 0 carries the
NaN sentinel, observation 1 carries the value 0. -/
def dsNaN : DataSource :=
  ⟨1, 0, 2, fun _ i => if i = 0 then none else some 0, fun _ _ => []⟩

/-- One numeric attribute, three observations valued 0, 1, 2. -/
def dsIota : DataSource := ⟨1, 0, 3, fun _ i => some (i : ℤ), fun _ _ => []⟩

/-- No numeric attribute, one textual attribute whose strings are all
empty, two observations. -/
def dsChar : DataSource := ⟨0, 1, 2, fun _ _ => none, fun _ _ => []⟩

/-- A generator stream that always yields 0. -/
def gZero : ℕ → ℕ := fun _ => 0

/-- A generator stream that always yields 1. -/
def gOne : ℕ → ℕ := fun _ => 1

/-- A sampler stream whose every block is the single index 0: the
std::sample outcome when the population has one observation. -/
def samplerZero : ℕ → List ℕ := fun _ => [0]

/-- A sampler stream whose every block is 0, 1, 2: the std::sample
outcome when treeSize = 3 and the population is 0, 1, 2. -/
def samplerIota3 : ℕ → List ℕ := fun _ => [0, 1, 2]

/-- An internal numeric node whose two children are empty leaves. -/
def tree1 : Node := Node.numSplit 0 (some 0) (Node.leaf 0) (Node.leaf 0)

/-- The tree that growTree builds from the sample 0,1 over dsNaN with
the stream gOne. -/
def nanTree : Node := Node.numSplit 0 (some 0) (Node.leaf 2) (Node.leaf 0)

/-! Helper lemmas. -/

theorem eulerGamma_gt_half : (1 : ℝ) / 2 < eulerGamma := by
  norm_num [eulerGamma]

theorem apl_two : averagePathLength 2 = 2 * eulerGamma - 1 := by
  unfold averagePathLength aplLogArg
  norm_num [Real.log_one]

theorem apl_two_pos : 0 < averagePathLength 2 := by
  rw [apl_two]
  have h := eulerGamma_gt_half
  linarith

theorem apl_lt_succ (n : ℕ) (hn : 2 ≤ n) :
    averagePathLength n < averagePathLength (n + 1) := by
  have hx2 : (2 : ℝ) ≤ (n : ℝ) := by exact_mod_cast hn
  have hx0 : (0 : ℝ) < (n : ℝ) := by linarith
  have hx1 : (0 : ℝ) < (n : ℝ) - 1 := by linarith
  have hq : Real.log (((n : ℝ) - 1) / n) < ((n : ℝ) - 1) / n - 1 := by
    apply Real.log_lt_sub_one_of_pos (div_pos hx1 hx0)
    intro h
    rw [div_eq_one_iff_eq (ne_of_gt hx0)] at h
    linarith
  rw [Real.log_div (by linarith) (ne_of_gt hx0)] at hq
  have hval : ((n : ℝ) - 1) / n - 1 = -(1 / n) := by field_simp
  rw [hval] at hq
  have hfrac : 2 * ((n : ℝ) - 1) / n = 2 - 2 * (1 / n) := by field_simp; ring
  have hfrac2 : 2 * ((n : ℝ) + 1 - 1) / ((n : ℝ) + 1) ≤ 2 := by
    rw [div_le_iff₀ (by linarith)]
    nlinarith
  simp only [averagePathLength, aplLogArg]
  push_cast
  have e1 : (n : ℝ) + 1 - 1 = (n : ℝ) := by ring
  rw [e1] at hfrac2 ⊢
  linarith

theorem apl_pos (n : ℕ) (hn : 2 ≤ n) : 0 < averagePathLength n := by
  induction n, hn using Nat.le_induction with
  | base => exact apl_two_pos
  | succ m hm ih => exact lt_trans ih (apl_lt_succ m hm)

theorem pathLength_ge (ds : DataSource) (ob : ℕ) :
    ∀ (t : Node) (len : ℕ), (len : ℝ) ≤ pathLength ds ob t len := by
  intro t
  induction t with
  | leaf n =>
    intro len
    simp only [pathLength]
    split
    · exact le_refl _
    next h =>
      have hp := apl_pos n (by omega)
      linarith
  | numSplit attr val l r ihl ihr =>
    intro len
    have hstep : (len : ℝ) ≤ ((len + 1 : ℕ) : ℝ) := by push_cast; linarith
    simp only [pathLength]
    split
    · exact le_trans hstep (ihl (len + 1))
    · exact le_trans hstep (ihr (len + 1))
  | charSplit attr val l r ihl ihr =>
    intro len
    have hstep : (len : ℝ) ≤ ((len + 1 : ℕ) : ℝ) := by push_cast; linarith
    simp only [pathLength]
    split
    · exact le_trans hstep (ihl (len + 1))
    · split
      · exact le_trans hstep (ihr (len + 1))
      · split
        · exact le_trans hstep (ihl (len + 1))
        · exact le_trans hstep (ihr (len + 1))

theorem totalPathLength_nonneg (F : Forest) (ob : ℕ) :
    0 ≤ totalPathLength F ob := by
  apply List.sum_nonneg
  intro x hx
  simp only [List.mem_map] at hx
  obtain ⟨t, ht, rfl⟩ := hx
  have h := pathLength_ge F.ds ob t 0
  simpa using h

theorem treeDepth_growTree_le (ds : DataSource) (g : ℕ → ℕ) :
    ∀ (fuel : ℕ) (sample : List ℕ) (pos : ℕ),
      treeDepth (growTree ds g fuel sample pos).1 ≤ fuel := by
  intro fuel
  induction fuel with
  | zero =>
    intro sample pos
    simp [growTree, treeDepth]
  | succ m ih =>
    intro sample pos
    simp only [growTree]
    split
    · simp [treeDepth]
    · split
      · simp only [treeDepth]
        exact Nat.succ_le_succ (max_le (ih _ _) (ih _ _))
      · simp only [treeDepth]
        exact Nat.succ_le_succ (max_le (ih _ _) (ih _ _))

theorem growForest_length (ds : DataSource) (mTH : ℕ) (sampler : ℕ → List ℕ)
    (g : ℕ → ℕ) : ∀ fs : ℕ, ((growForest ds mTH sampler g fs).2).length = fs := by
  intro fs
  induction fs with
  | zero => rfl
  | succ n ih => simp [growForest, ih]

theorem maxTreeHeight_two : maxTreeHeight 2 = 1 := by
  have h1 : Nat.clog 2 2 ≤ 1 :=
    (Nat.le_pow_iff_clog_le (by norm_num)).1 (by norm_num)
  have h2 : ¬ Nat.clog 2 2 ≤ 0 := by
    intro h
    have := (Nat.le_pow_iff_clog_le (by norm_num)).2 h
    norm_num at this
  unfold maxTreeHeight
  omega

theorem maxTreeHeight_three : maxTreeHeight 3 = 2 := by
  have h1 : Nat.clog 2 3 ≤ 2 :=
    (Nat.le_pow_iff_clog_le (by norm_num)).1 (by norm_num)
  have h2 : ¬ Nat.clog 2 3 ≤ 1 := by
    intro h
    have := (Nat.le_pow_iff_clog_le (by norm_num)).2 h
    norm_num at this
  unfold maxTreeHeight
  omega

theorem strcmpLe_iff :
    ∀ s t : List ℕ, strcmpLe s t = true ↔ (s = t ∨ List.Lex (· < ·) s t) := by
  intro s
  induction s with
  | nil =>
    intro t
    cases t with
    | nil => simp [strcmpLe]
    | cons b bs =>
      simp only [strcmpLe, true_iff]
      exact Or.inr List.Lex.nil
  | cons a as ih =>
    intro t
    cases t with
    | nil =>
      simp only [strcmpLe]
      apply iff_of_false
      · simp
      · rintro (h | h)
        · exact List.noConfusion h
        · exact List.Lex.not_nil_right _ _ h
    | cons b bs =>
      simp only [strcmpLe]
      split
      next hab =>
        exact iff_of_true rfl (Or.inr (List.Lex.rel hab))
      next hab =>
        split
        next hba =>
          apply iff_of_false
          · simp
          · rintro (h | h)
            · injection h with h1 h2
              omega
            · cases h with
              | cons h => omega
              | rel h => omega
        next hba =>
          have heq : a = b := by omega
          subst heq
          rw [ih bs]
          constructor
          · rintro (h | h)
            · exact Or.inl (by rw [h])
            · exact Or.inr (List.Lex.cons h)
          · rintro (h | h)
            · injection h with h1 h2
              exact Or.inl h2
            · cases h with
              | cons h => exact Or.inr h
              | rel h => omega

/-! Claim theorems. -/

/-- C6: for every tree produced by growTree starting at depth 0 (full
height budget maxTreeHeight treeSize), the depth of every node is at
most maxTreeHeight treeSize = ceil(log2(treeSize)), embedded as
Nat.clog 2 treeSize. -/
theorem growTree_depth_le_maxTreeHeight (ds : DataSource) (g : ℕ → ℕ)
    (treeSize : ℕ) (sample : List ℕ) (pos : ℕ) :
    treeDepth (growTree ds g (maxTreeHeight treeSize) sample pos).1 ≤
      maxTreeHeight treeSize ∧
    maxTreeHeight treeSize = Nat.clog 2 treeSize :=
  ⟨treeDepth_growTree_le ds g _ sample pos, rfl⟩

/-- C7: for every n > 1, averagePathLength n is the expression
2 * (log (n - 1) + eulerGamma) - 2 * (n - 1) / n, it is strictly
positive, and it is strictly increasing in n. -/
theorem averagePathLength_pos_strictMono (n : ℕ) (h : 1 < n) :
    averagePathLength n =
      2 * (Real.log ((n : ℝ) - 1) + eulerGamma) - 2 * ((n : ℝ) - 1) / (n : ℝ) ∧
    0 < averagePathLength n ∧
    averagePathLength n < averagePathLength (n + 1) :=
  ⟨rfl, apl_pos n h, apl_lt_succ n h⟩

/-- Witness for C7 at n = 2. -/
theorem averagePathLength_pos_strictMono_witness :
    1 < 2 ∧
    (averagePathLength 2 =
      2 * (Real.log (((2 : ℕ) : ℝ) - 1) + eulerGamma) -
        2 * (((2 : ℕ) : ℝ) - 1) / ((2 : ℕ) : ℝ) ∧
    0 < averagePathLength 2 ∧
    averagePathLength 2 < averagePathLength (2 + 1)) :=
  ⟨by norm_num, averagePathLength_pos_strictMono 2 (by norm_num)⟩

/-- C5 counterexample: with treeSize = 2 larger than the single
observation of dsConst, no InvalidConfiguration condition arises;
growForest silently builds its tree from the one-element block that
std::sample can deliver, so a tree IS built under the invalid
configuration, contradicting the claim. -/
theorem growForest_builds_despite_oversized_treeSize :
    dsConst.nObs < 2 ∧
    (growForest dsConst (maxTreeHeight 2) samplerZero gZero 1).2 =
      [Node.leaf 1] := by
  refine ⟨by decide, ?_⟩
  rw [maxTreeHeight_two]
  decide

/-- C5 amended: the source validates nothing; growForest builds exactly
forestSize trees for every configuration, including treeSize = 0 or
treeSize greater than the observation count, and no InvalidConfiguration
condition exists anywhere in the code. -/
theorem growForest_always_builds (ds : DataSource) (treeSize fs : ℕ)
    (sampler : ℕ → List ℕ) (g : ℕ → ℕ) :
    (builtForest ds treeSize fs sampler g).trees.length = fs :=
  growForest_length ds (maxTreeHeight treeSize) sampler g fs

/-- C4 counterexample: a forest constructed with forestSize = 0 and
populated by growForest owns no tree, and anomalyScore does NOT fail
with an EmptyForest condition: the division of line 129 runs with the
zero divisor and the IEEE result is NaN, embedded as none. -/
theorem anomalyScore_zero_forestSize_nan :
    (builtForest dsConst 2 0 samplerZero gZero).trees = [] ∧
    (builtForest dsConst 2 0 samplerZero gZero).forestSize = 0 ∧
    anomalyScore? (builtForest dsConst 2 0 samplerZero gZero) 0 = none :=
  ⟨rfl, rfl, rfl⟩

/-- C4 amended: for every forest constructed with forestSize = 0, no
EmptyForest condition is raised; anomalyScore performs the averaging
division with the zero divisor forestSize and returns NaN (none). -/
theorem anomalyScore_zero_forestSize_always_nan (ds : DataSource)
    (treeSize : ℕ) (sampler : ℕ → List ℕ) (g : ℕ → ℕ) (ob : ℕ) :
    anomalyScore? (builtForest ds treeSize 0 sampler g) ob = none := rfl

/-- C9: two forests built from the same data source, the same treeSize,
forestSize and seed (hence the same generator stream and, growForest
being synchronous, the same sequence of sample draws), by a single
growForest call each, assign every observation identical anomaly
scores. -/
theorem growForest_score_deterministic
    (ds₁ ds₂ : DataSource) (ts₁ ts₂ fs₁ fs₂ : ℕ)
    (sampler₁ sampler₂ : ℕ → List ℕ) (g₁ g₂ : ℕ → ℕ) (ob : ℕ)
    (hds : ds₁ = ds₂) (hts : ts₁ = ts₂) (hfs : fs₁ = fs₂)
    (hsampler : sampler₁ = sampler₂) (hg : g₁ = g₂) :
    anomalyScore? (builtForest ds₁ ts₁ fs₁ sampler₁ g₁) ob =
      anomalyScore? (builtForest ds₂ ts₂ fs₂ sampler₂ g₂) ob := by
  subst hds hts hfs hsampler hg
  rfl

/-- Witness for C9 on a concrete configuration. -/
theorem growForest_score_deterministic_witness :
    (dsConst = dsConst ∧ (2 : ℕ) = 2 ∧ (1 : ℕ) = 1 ∧
      samplerZero = samplerZero ∧ gZero = gZero) ∧
    anomalyScore? (builtForest dsConst 2 1 samplerZero gZero) 0 =
      anomalyScore? (builtForest dsConst 2 1 samplerZero gZero) 0 :=
  ⟨⟨rfl, rfl, rfl, rfl, rfl⟩,
    growForest_score_deterministic dsConst dsConst 2 2 1 1
      samplerZero samplerZero gZero gZero 0 rfl rfl rfl rfl rfl⟩

/-- C1: over dsNaN, growTree builds nanTree and partitions the
NaN-valued observation 0 into the LEFT child (numLeft is true, so
observation 0 is bundled into the left leaf of size 2), but pathLength,
whose comparison val <= splitValue is false for NaN, walks observation 0
into the RIGHT, empty leaf and returns 1, while the walk that follows
the construction rule returns 1 + averagePathLength 2.  The two walks
therefore disagree: pathLength does not follow the comparison rule that
growTree used, refuting the claim on this input. -/
theorem pathLength_nan_divergence :
    (growTree dsNaN gOne 1 [0, 1] 0).1 = nanTree ∧
    numLeft (some 0) (dsNaN.numVal 0 0) = true ∧
    pathLength dsNaN 0 nanTree 0 = 1 ∧
    pathLengthSpec dsNaN 0 nanTree 0 = 1 + averagePathLength 2 ∧
    pathLength dsNaN 0 nanTree 0 ≠ pathLengthSpec dsNaN 0 nanTree 0 := by
  have hcode : pathLength dsNaN 0 nanTree 0 = 1 := by
    simp [pathLength, nanTree, ieeeLe, dsNaN]
  have hspec : pathLengthSpec dsNaN 0 nanTree 0 = 1 + averagePathLength 2 := by
    simp [pathLengthSpec, nanTree, numLeft, dsNaN]
  refine ⟨by decide, by decide, hcode, hspec, ?_⟩
  rw [hcode, hspec]
  have hp := apl_two_pos
  intro h
  linarith

/-- C3: running the loop of grow over dsIota with treeSize = 3 and the
std::sample blocks samplerIota3, the first tree is grown from the
3-element sample 0,1,2, but the second tree is grown from the 6-element
accumulated sample 0,1,2,0,1,2, which has repeated indices: the sample
vector of line 169 is never cleared between iterations, refuting the
claim that every tree gets exactly treeSize distinct indices. -/
theorem grow_sample_accumulates :
    (growJobs dsIota (maxTreeHeight 3) samplerIota3 gZero 1).1 = [0, 1, 2] ∧
    (growJobs dsIota (maxTreeHeight 3) samplerIota3 gZero 2).1 =
      [0, 1, 2, 0, 1, 2] ∧
    (growJobs dsIota (maxTreeHeight 3) samplerIota3 gZero 2).1.length = 2 * 3 ∧
    ¬ (growJobs dsIota (maxTreeHeight 3) samplerIota3 gZero 2).1.Nodup := by
  rw [maxTreeHeight_three]
  decide

/-- A forest state holding two trees although its forestSize field is 1,
as arises when grow jobs append trees beyond the initial target. -/
def forestTwoTrees : Forest := ⟨dsConst, 2, 1, [tree1, tree1]⟩

/-- C2 counterexample: on a forest owning 2 trees with forestSize = 1,
the score of the source (which divides the summed path lengths by the
forestSize field at line 129) differs from the score that averages over
the owned trees, refuting the claim that the averaging denominator is
the number of owned trees. -/
theorem anomalyScore_divisor_counterexample :
    forestTwoTrees.trees.length = 2 ∧
    forestTwoTrees.forestSize = 1 ∧
    anomalyScore? forestTwoTrees 0 ≠ anomalyScoreMean? forestTwoTrees 0 := by
  have hpl : pathLength dsConst 0 tree1 0 = 1 := by
    simp [pathLength, tree1, ieeeLe, dsConst]
  have htot : totalPathLength forestTwoTrees 0 = 2 := by
    simp [totalPathLength, forestTwoTrees, hpl]
    norm_num
  have hc := apl_two_pos
  have hfs1 : forestTwoTrees.forestSize = 1 := rfl
  have hts2 : forestTwoTrees.treeSize = 2 := rfl
  have hlen2 : forestTwoTrees.trees.length = 2 := rfl
  have hA : anomalyScore? forestTwoTrees 0 =
      some ((2 : ℝ) ^ (-(2 : ℝ) / averagePathLength 2)) := by
    simp only [anomalyScore?, hfs1, hts2, htot]
    norm_num
  have hB : anomalyScoreMean? forestTwoTrees 0 =
      some ((2 : ℝ) ^ (-(1 : ℝ) / averagePathLength 2)) := by
    simp only [anomalyScoreMean?, hlen2, hts2, htot]
    norm_num
  refine ⟨rfl, rfl, ?_⟩
  rw [hA, hB]
  intro h
  have h2 := Option.some.inj h
  have hlt : -(2 : ℝ) / averagePathLength 2 < -(1 : ℝ) / averagePathLength 2 := by
    rw [div_lt_div_iff₀ hc hc]
    nlinarith
  have := Real.rpow_lt_rpow_of_exponent_lt (by norm_num : (1 : ℝ) < 2) hlt
  rw [h2] at this
  exact lt_irrefl _ this

/-- C2 amended: anomalyScore divides by the forestSize field, so it
equals the mean over the owned trees exactly when the forest owns
forestSize trees, as after a single growForest call; with extra trees
appended by grow jobs the denominator stays forestSize. -/
theorem anomalyScore_eq_mean_of_full (F : Forest) (ob : ℕ)
    (h : F.trees.length = F.forestSize) :
    anomalyScore? F ob = anomalyScoreMean? F ob := by
  simp only [anomalyScore?, anomalyScoreMean?, h]

/-- Witness for the amended C2 on a forest owning exactly forestSize
trees. -/
theorem anomalyScore_eq_mean_of_full_witness :
    (Forest.mk dsConst 2 1 [tree1]).trees.length =
      (Forest.mk dsConst 2 1 [tree1]).forestSize ∧
    anomalyScore? (Forest.mk dsConst 2 1 [tree1]) 0 =
      anomalyScoreMean? (Forest.mk dsConst 2 1 [tree1]) 0 :=
  ⟨rfl, anomalyScore_eq_mean_of_full _ 0 rfl⟩

/-- C8: the textual partition rule charLeft puts an observation string
obs left of the pivot string val exactly when obs is strictly shorter,
or of equal length and byte-lexicographically at most val, so strictly
shorter strings always go left and strictly longer ones always go right
regardless of content; and whenever growTree draws a textual attribute
on a splittable sample, it partitions the sample by exactly this rule:
the left subtree is grown from the charLeft-filtered sample and the
right subtree from its complement. -/
theorem growTree_char_rule :
    (∀ val obs : List ℕ,
      (charLeft val obs = true ↔
        (obs.length < val.length ∨
          (obs.length = val.length ∧
            (obs = val ∨ List.Lex (· < ·) obs val))))) ∧
    (∀ (ds : DataSource) (g : ℕ → ℕ) (fuel : ℕ) (sample : List ℕ) (pos : ℕ),
      1 < sample.length →
      ds.n_num_attrs ≤ g pos % (ds.n_num_attrs + ds.n_char_attrs) →
      growTree ds g (fuel + 1) sample pos =
        (let attr := g pos % (ds.n_num_attrs + ds.n_char_attrs)
         let val := ds.charVal (attr - ds.n_num_attrs)
           (sample.getD (g (pos + 1) % sample.length) 0)
         let L := growTree ds g fuel
           (sample.filter fun i =>
             charLeft val (ds.charVal (attr - ds.n_num_attrs) i)) (pos + 2)
         let R := growTree ds g fuel
           (sample.filter fun i =>
             !charLeft val (ds.charVal (attr - ds.n_num_attrs) i)) L.2
         (Node.charSplit attr val L.1 R.1, R.2))) := by
  constructor
  · intro val obs
    unfold charLeft
    split
    next hlt =>
      exact iff_of_true rfl (Or.inl hlt)
    next hlt =>
      split
      next hgt =>
        apply iff_of_false
        · simp
        · rintro (h | ⟨h, _⟩) <;> omega
      next hgt =>
        have hlen : obs.length = val.length := by omega
        rw [strcmpLe_iff]
        constructor
        · intro h
          exact Or.inr ⟨hlen, h⟩
        · rintro (h | ⟨_, h⟩)
          · omega
          · exact h
  · intro ds g fuel sample pos h1 h2
    simp only [growTree]
    rw [if_neg (by omega), if_neg (by omega)]

/-- Witness for the partition conjunct of C8 over dsChar, where every
string is empty and both observations therefore go left. -/
theorem growTree_char_rule_witness :
    (1 < ([0, 1] : List ℕ).length ∧
      dsChar.n_num_attrs ≤
        gZero 0 % (dsChar.n_num_attrs + dsChar.n_char_attrs)) ∧
    growTree dsChar gZero 1 [0, 1] 0 =
      (Node.charSplit 0 [] (Node.leaf 2) (Node.leaf 0), 2) := by
  refine ⟨⟨by decide, by decide⟩, ?_⟩
  have h := growTree_char_rule.2 dsChar gZero 0 [0, 1] 0 (by decide) (by decide)
  rw [h]
  decide

/-- C10: the normalization divisor averagePathLength treeSize that
anomalyScore evaluates feeds aplLogArg treeSize to log; at treeSize = 1
that argument is 0 (IEEE log(0) is negative infinity, so the divisor is
not a finite positive number), while under the stronger precondition
treeSize ≥ 2 the divisor is strictly positive and the score is a
well-defined finite value in the interval (0, 1]. -/
theorem anomalyScore_defined_range (F : Forest) (ob : ℕ)
    (h2 : 2 ≤ F.treeSize) (hfs : F.forestSize ≠ 0) :
    aplLogArg 1 = 0 ∧
    0 < averagePathLength F.treeSize ∧
    ∃ s, anomalyScore? F ob = some s ∧ 0 < s ∧ s ≤ 1 := by
  have hc := apl_pos F.treeSize h2
  refine ⟨by simp [aplLogArg], hc, ?_⟩
  refine ⟨(2 : ℝ) ^
    (-(totalPathLength F ob / (F.forestSize : ℝ)) / averagePathLength F.treeSize),
    ?_, ?_, ?_⟩
  · simp [anomalyScore?, hfs]
  · exact Real.rpow_pos_of_pos (by norm_num) _
  · apply Real.rpow_le_one_of_one_le_of_nonpos (by norm_num)
    have hT := totalPathLength_nonneg F ob
    have hfs0 : (0 : ℝ) < (F.forestSize : ℝ) := by
      have hp : 0 < F.forestSize := Nat.pos_of_ne_zero hfs
      exact_mod_cast hp
    have hdiv : 0 ≤ totalPathLength F ob / (F.forestSize : ℝ) :=
      div_nonneg hT (le_of_lt hfs0)
    rw [neg_div]
    exact neg_nonpos_of_nonneg (div_nonneg hdiv (le_of_lt hc))

/-- Witness for C10 on a concrete forest with treeSize = 2 and
forestSize = 1. -/
theorem anomalyScore_defined_range_witness :
    (2 ≤ (Forest.mk dsConst 2 1 []).treeSize ∧
      (Forest.mk dsConst 2 1 []).forestSize ≠ 0) ∧
    (aplLogArg 1 = 0 ∧
      0 < averagePathLength (Forest.mk dsConst 2 1 []).treeSize ∧
      ∃ s, anomalyScore? (Forest.mk dsConst 2 1 []) 0 = some s ∧
        0 < s ∧ s ≤ 1) :=
  ⟨⟨by decide, by decide⟩,
    anomalyScore_defined_range (Forest.mk dsConst 2 1 []) 0 (by decide) (by decide)⟩

end IsolationForest
